import Mathlib

/-!
Shallow embedding of the CampusLink backend core (tenant-scoped
authorization, verification workflow, notification fan-out, media storage
resolution), translated from `backend/app` of the repository:
endpoints `events.py`, `users.py`, `verifications.py`, `marketplace.py`,
models `models.py`, storage utility `utils/storage.py`.

Persistence is modelled as explicit state (`DB`), HTTP exceptions as an
`Err` value, file-system and remote-object-store effects as a trace of
`StorageOp`s, and failure injection for the notification fan-out and the
remote store as boolean fields of an `Env` record.
-/

namespace CampusLink

/-- An HTTP exception as raised by `fastapi.HTTPException`:
a status code and a detail string. -/
inductive Err where
  | http (status : Nat) (detail : String)
deriving DecidableEq, Repr

/-- A storage side effect attempted by an endpoint: a remote object-store
put/remove (Supabase) or a local filesystem write. -/
inductive StorageOp where
  | remotePut (path : String)
  | remoteRemove (path : String)
  | localWrite (path : String)
deriving DecidableEq, Repr

/-- `models.User` (the fields the embedded endpoints read or write). -/
structure User where
  id : Nat
  email : String
  hashedPassword : String
  fullName : String
  role : String
  collegeId : Option Nat
  phoneNumber : Option String
  address : Option String
  interests : Option String
  collegeName : Option String
  profileImageUrl : Option String
  themePreference : String
  isActive : Bool
  isSuperuser : Bool
deriving DecidableEq, Repr

/-- `models.Event`. -/
structure Event where
  id : Nat
  title : String
  description : String
  location : String
  imageUrl : Option String
  organizerId : Nat
  collegeId : Option Nat
deriving DecidableEq, Repr

/-- `models.Notification`. -/
structure Notification where
  id : Nat
  userId : Option Nat
  title : String
  message : String
  type : String
  isRead : Bool
deriving DecidableEq, Repr

/-- `models.VerificationRequest`. -/
structure VerificationRequest where
  id : Nat
  userId : Nat
  idCardUrl : String
  status : String
  adminNote : Option String
deriving DecidableEq, Repr

/-- `models.MarketplaceItem` (`price` is a SQL Float; kept as `Float`). -/
structure MarketplaceItem where
  id : Nat
  ownerId : Nat
  title : String
  description : String
  price : Float
  category : String
  imageUrl : Option String
  isAvailable : Bool
deriving Repr

/-- The record store reached through the SQLAlchemy session: one list per
table plus autoincrement counters for rows the endpoints insert. -/
structure DB where
  users : List User
  events : List Event
  notifications : List Notification
  verificationRequests : List VerificationRequest
  marketplaceItems : List MarketplaceItem
  nextEventId : Nat
  nextNotifId : Nat
  nextVRId : Nat
  nextItemId : Nat
deriving Repr

/-- Process environment: whether the Supabase client is configured
(`SupabaseStorage.is_configured`), whether a remote upload call succeeds,
whether the notification insert commit succeeds, whether the websocket
broadcast succeeds, and the configuration strings used to build remote
public URLs (`SUPABASE_URL`, bucket, the uuid hex drawn for verification
document names). -/
structure Env where
  storageConfigured : Bool
  remoteUploadOk : Bool
  notifInsertOk : Bool
  broadcastOk : Bool
  supabaseUrl : String
  bucket : String
  uuidHex : String
deriving DecidableEq, Repr

/-- The characters after the last dot (the whole list when no dot
occurs): `split(".")[-1]` at the character level. -/
def afterLastDot : List Char → List Char → List Char
  | [], acc => acc
  | c :: cs, acc => if c = '.' then afterLastDot cs [] else afterLastDot cs (acc ++ [c])

/-- Python `filename.split(".")[-1].lower()`: the substring after the last
dot (the whole string when no dot occurs), lower-cased. -/
def extOf (filename : String) : String :=
  String.mk ((afterLastDot filename.data []).map Char.toLower)

/-- `pathlib.Path(file_path).suffix.lower()`: the final extension with its
dot, empty when the name has no dot or is a bare dot-file. -/
def suffixOf (filename : String) : String :=
  let parts := filename.splitOn "."
  if parts.length ≤ 1 then ""
  else if parts.length = 2 && parts.headD "" = "" then ""
  else "." ++ (parts.getLastD "").toLower

/-- `SupabaseStorage._get_public_url`. -/
def publicUrl (env : Env) (storagePath : String) : String :=
  let u := env.supabaseUrl
  let b := env.bucket
  s!"{u}/storage/v1/object/public/{b}/{storagePath}"

/-- Local fallback file name for an event image:
`event_{event_id}.{ext}` under `static/events/`. -/
def localEventFile (eventId : Nat) (ext : String) : String :=
  s!"event_{eventId}.{ext}"

/-- Local fallback file name for a profile image:
`user_{user_id}.{ext}` under `static/profile_images/`. -/
def localProfileFile (userId : Nat) (ext : String) : String :=
  s!"user_{userId}.{ext}"

/-- Local fallback path for a verification document:
`static/verifications/id_{user_id}_{filename}`. -/
def localVerificationPath (userId : Nat) (filename : String) : String :=
  s!"static/verifications/id_{userId}_{filename}"

/-- Local fallback path for a marketplace item image:
`static/marketplace/{user_id}_{filename}`. -/
def localMarketplacePath (userId : Nat) (filename : String) : String :=
  s!"static/marketplace/{userId}_{filename}"

/-- Modelled from the spec: the capability requirement
`college_admin_or_above` enforced by the route dependency
`deps.get_current_active_college_admin`, whose module is not part of the
sources; §4.3 allows it for `super_admin` (rule 1) and for actors whose
role is `college_admin` (rule 3). -/
def collegeAdminOrAbove (u : User) : Bool :=
  u.isSuperuser || u.role = "college_admin"

/-- `events.read_events`: select all events, add a
`college_id == current_user.college_id` clause unless the actor is a
superuser, then apply offset/limit pagination. -/
def read_events (db : DB) (u : User) (skip limit : Nat) : List Event :=
  let q := if u.isSuperuser then db.events
           else db.events.filter (fun e => e.collegeId == u.collegeId)
  (q.drop skip).take limit

/-- Modelled from the spec: the event-creation payload (`schemas/event.py`
is not among the sources); the scenario in §8 creates an event from a
title, and the model's remaining content columns. -/
structure EventCreate where
  title : String
  description : String
  location : String
deriving DecidableEq, Repr

/-- `events.create_event`: commit the event (organizer and college taken
from the actor), then, inside a try/except that swallows every exception,
commit a broadcast `Notification` row and push it to the websocket
manager. `env.notifInsertOk` injects a failure of the notification
commit, `env.broadcastOk` a failure of the push; neither touches the
committed event. The route dependency `get_current_active_college_admin`
is modelled by the `collegeAdminOrAbove` guard. -/
def create_event (env : Env) (db : DB) (u : User) (e_in : EventCreate) :
    Except Err Event × DB :=
  if !(collegeAdminOrAbove u) then
    (.error (.http 403 "Not enough permissions"), db)
  else
    let ev : Event :=
      { id := db.nextEventId, title := e_in.title, description := e_in.description,
        location := e_in.location, imageUrl := none,
        organizerId := u.id, collegeId := u.collegeId }
    let db1 := { db with events := db.events ++ [ev], nextEventId := db.nextEventId + 1 }
    let db2 :=
      if env.notifInsertOk then
        let n : Notification :=
          { id := db1.nextNotifId, userId := none, title := "New Event!",
            message := ev.title ++ " has been organized by " ++ u.fullName,
            type := "info", isRead := false }
        { db1 with notifications := db1.notifications ++ [n],
                   nextNotifId := db1.nextNotifId + 1 }
      else db1
    (.ok ev, db2)

/-- `events.read_event`: fetch by id, 404 when absent; no actor is
consulted (the route has no user dependency) and no tenant clause is
added. -/
def read_event (db : DB) (id : Nat) : Except Err Event :=
  match db.events.find? (fun e => e.id == id) with
  | some e => .ok e
  | none => .error (.http 404 "Event not found")

/-- Modelled from the spec: the event-update payload (`schemas/event.py`
is not among the sources); per §9 updates are attribute-by-attribute
dynamic assignments of the provided fields. -/
structure EventUpdate where
  title : Option String := none
  description : Option String := none
  location : Option String := none
deriving DecidableEq, Repr

/-- The `setattr` loop of `events.update_event` over
`event_in.dict(exclude_unset=True)`. -/
def applyEventUpdate (e : Event) (e_in : EventUpdate) : Event :=
  { e with
    title := e_in.title.getD e.title,
    description := e_in.description.getD e.description,
    location := e_in.location.getD e.location }

/-- `events.update_event`: 404 when the id is absent; 400
"Not enough permissions" when the actor is neither superuser nor the
organizer; otherwise assign the provided fields and commit. -/
def update_event (db : DB) (u : User) (id : Nat) (e_in : EventUpdate) :
    Except Err Event × DB :=
  match db.events.find? (fun e => e.id == id) with
  | none => (.error (.http 404 "Event not found"), db)
  | some e =>
    if !u.isSuperuser && e.organizerId != u.id then
      (.error (.http 400 "Not enough permissions"), db)
    else
      let e2 := applyEventUpdate e e_in
      (.ok e2, { db with events := db.events.map (fun x => if x.id == id then e2 else x) })

/-- `events.delete_event`: same lookup and permission check as update
(also status 400 on the permission failure), then delete the row. -/
def delete_event (db : DB) (u : User) (id : Nat) : Except Err Event × DB :=
  match db.events.find? (fun e => e.id == id) with
  | none => (.error (.http 404 "Event not found"), db)
  | some e =>
    if !u.isSuperuser && e.organizerId != u.id then
      (.error (.http 400 "Not enough permissions"), db)
    else
      (.ok e, { db with events := db.events.eraseP (fun x => x.id == id) })

/-- `SupabaseStorage.upload_event_image`: `None` when the client is not
configured; otherwise attempt a put at
`events/{event_id}/event_image{ext}` and return the public URL, or `None`
when the call raises. -/
def storage_upload_event_image (env : Env) (eventId : Nat) (filename : String) :
    Option String × List StorageOp :=
  if !env.storageConfigured then (none, [])
  else
    let ext := suffixOf filename
    let storagePath := s!"events/{eventId}/event_image{ext}"
    if env.remoteUploadOk then (some (publicUrl env storagePath), [.remotePut storagePath])
    else (none, [.remotePut storagePath])

/-- `events.upload_event_image`: 404 on a missing event, 403 when the
actor is neither superuser nor the organizer, 400 on an extension outside
jpg/jpeg/png/webp; then the remote upload, falling back to a local write
under `static/events/` when it yields no URL; the resulting URL is
committed onto the event. -/
def upload_event_image (env : Env) (db : DB) (u : User) (id : Nat) (filename : String) :
    Except Err Event × DB × List StorageOp :=
  match db.events.find? (fun e => e.id == id) with
  | none => (.error (.http 404 "Event not found"), db, [])
  | some e =>
    if !u.isSuperuser && e.organizerId != u.id then
      (.error (.http 403 "Not enough permissions"), db, [])
    else
      let ext := extOf filename
      if !(["jpg", "jpeg", "png", "webp"].contains ext) then
        (.error (.http 400 "Invalid file type. Only JPG/PNG/WEBP allowed."), db, [])
      else
        let (remote, ops) := storage_upload_event_image env e.id filename
        let fname := localEventFile e.id ext
        let url := remote.getD ("/static/events/" ++ fname)
        let allOps := if remote.isSome then ops
                      else ops ++ [.localWrite ("static/events/" ++ fname)]
        let e2 := { e with imageUrl := some url }
        (.ok e2,
         { db with events := db.events.map (fun x => if x.id == id then e2 else x) },
         allOps)

/-- Modelled from the spec: the password hashing primitive
(`core/security.py` is not among the sources; §1 places hashing out of
scope) — any fixed encoding stands in. -/
def get_password_hash (p : String) : String :=
  "hashed:" ++ p

/-- `schemas.user.UserUpdate` under `dict(exclude_unset=True)`: every
field of `UserBase` plus `password`, each either absent or carrying the
value to assign (nullable columns may be assigned null, hence the nested
`Option`). -/
structure UserUpdate where
  email : Option String := none
  isActive : Option Bool := none
  isSuperuser : Option Bool := none
  fullName : Option String := none
  phoneNumber : Option (Option String) := none
  address : Option (Option String) := none
  interests : Option (Option String) := none
  collegeName : Option (Option String) := none
  profileImageUrl : Option (Option String) := none
  themePreference : Option String := none
  collegeId : Option (Option Nat) := none
  role : Option String := none
  password : Option String := none
deriving DecidableEq, Repr

/-- The `setattr` loop of `users.update_user_me`: assign every provided
field onto the current user; a provided `password` is hashed into
`hashed_password` first. -/
def applyUserUpdate (u : User) (upd : UserUpdate) : User :=
  { u with
    email := upd.email.getD u.email,
    isActive := upd.isActive.getD u.isActive,
    isSuperuser := upd.isSuperuser.getD u.isSuperuser,
    fullName := upd.fullName.getD u.fullName,
    phoneNumber := upd.phoneNumber.getD u.phoneNumber,
    address := upd.address.getD u.address,
    interests := upd.interests.getD u.interests,
    collegeName := upd.collegeName.getD u.collegeName,
    profileImageUrl := upd.profileImageUrl.getD u.profileImageUrl,
    themePreference := upd.themePreference.getD u.themePreference,
    collegeId := upd.collegeId.getD u.collegeId,
    role := upd.role.getD u.role,
    hashedPassword :=
      match upd.password with
      | some p => get_password_hash p
      | none => u.hashedPassword }

/-- `users.update_user_me`: no capability check and no error path — apply
the update to the current user and commit. -/
def update_user_me (db : DB) (u : User) (upd : UserUpdate) : User × DB :=
  let u2 := applyUserUpdate u upd
  (u2, { db with users := db.users.map (fun x => if x.id == u.id then u2 else x) })

/-- `SupabaseStorage.upload_profile_image`: `None` when not configured;
otherwise remove any prior object at
`users/{user_id}/profile_picture/profile_picture{ext}` (failures
tolerated) and put the new one, returning the public URL, or `None` when
the call raises. -/
def storage_upload_profile_image (env : Env) (userId : Nat) (filename : String) :
    Option String × List StorageOp :=
  if !env.storageConfigured then (none, [])
  else
    let ext := suffixOf filename
    let storagePath := s!"users/{userId}/profile_picture/profile_picture{ext}"
    if env.remoteUploadOk then
      (some (publicUrl env storagePath), [.remoteRemove storagePath, .remotePut storagePath])
    else (none, [.remoteRemove storagePath, .remotePut storagePath])

/-- `users.upload_profile_image`: 400 on an extension outside
jpg/jpeg/png/webp before anything else; then the remote upload, falling
back to a local write under `static/profile_images/` when it yields no
URL; the resulting URL is committed onto the current user. -/
def upload_profile_image (env : Env) (db : DB) (u : User) (filename : String) :
    Except Err User × DB × List StorageOp :=
  let ext := extOf filename
  if !(["jpg", "jpeg", "png", "webp"].contains ext) then
    (.error (.http 400 "Invalid file type. Only JPG/PNG/WEBP allowed."), db, [])
  else
    let (remote, ops) := storage_upload_profile_image env u.id filename
    let fname := localProfileFile u.id ext
    let url := remote.getD ("/static/profile_images/" ++ fname)
    let allOps := if remote.isSome then ops
                  else ops ++ [.localWrite ("static/profile_images/" ++ fname)]
    let u2 := { u with profileImageUrl := some url }
    (.ok u2,
     { db with users := db.users.map (fun x => if x.id == u.id then u2 else x) },
     allOps)

/-- `SupabaseStorage.upload_verification_document`: `None` when not
configured; otherwise put at
`users/{user_id}/verification/id_card_{uuid}{ext}` (a fresh unique name,
never removing prior objects) and return the public URL, or `None` when
the call raises. -/
def storage_upload_verification_document (env : Env) (userId : Nat) (filename : String) :
    Option String × List StorageOp :=
  if !env.storageConfigured then (none, [])
  else
    let ext := suffixOf filename
    let uniq := env.uuidHex
    let storagePath := s!"users/{userId}/verification/id_card_{uniq}{ext}"
    if env.remoteUploadOk then (some (publicUrl env storagePath), [.remotePut storagePath])
    else (none, [.remotePut storagePath])

/-- `verifications.create_verification_request`: first reject (400,
"A pending verification request already exists.") when the actor already
has a pending request; then reject (400) an extension outside
jpg/jpeg/png/pdf; then the remote upload, falling back to a local write
at `static/verifications/id_{user_id}_{filename}` when it yields no URL;
finally commit a new request in `pending` state. -/
def create_verification_request (env : Env) (db : DB) (u : User) (filename : String) :
    Except Err String × DB × List StorageOp :=
  if (db.verificationRequests.find?
      (fun r => r.userId == u.id && r.status == "pending")).isSome then
    (.error (.http 400 "A pending verification request already exists."), db, [])
  else
    let ext := extOf filename
    if !(["jpg", "jpeg", "png", "pdf"].contains ext) then
      (.error (.http 400 "Invalid file type. Only JPG/PNG/PDF allowed."), db, [])
    else
      let (remote, ops) := storage_upload_verification_document env u.id filename
      let localRel := localVerificationPath u.id filename
      let url := remote.getD localRel
      let allOps := if remote.isSome then ops else ops ++ [.localWrite localRel]
      let vr : VerificationRequest :=
        { id := db.nextVRId, userId := u.id, idCardUrl := url,
          status := "pending", adminNote := none }
      (.ok "Verification request submitted successfully",
       { db with verificationRequests := db.verificationRequests ++ [vr],
                 nextVRId := db.nextVRId + 1 },
       allOps)

/-- `verifications.approve_request`: behind the
`get_current_active_college_admin` dependency (modelled by the
`collegeAdminOrAbove` guard); 404 when the id is absent; otherwise set
`status` to `approved` and commit — the prior status is not consulted and
no tenant clause is added. -/
def approve_request (db : DB) (reviewer : User) (id : Nat) :
    Except Err String × DB :=
  if !(collegeAdminOrAbove reviewer) then
    (.error (.http 403 "Not enough permissions"), db)
  else
    match db.verificationRequests.find? (fun r => r.id == id) with
    | none => (.error (.http 404 "Verification request not found"), db)
    | some _ =>
      let rows := db.verificationRequests.map
        (fun r => if r.id == id then { r with status := "approved" } else r)
      (.ok "Approved", { db with verificationRequests := rows })

/-- `verifications.reject_request`: as `approve_request`, but sets
`status` to `rejected` and `admin_note` to the supplied note. -/
def reject_request (db : DB) (reviewer : User) (id : Nat) (note : Option String) :
    Except Err String × DB :=
  if !(collegeAdminOrAbove reviewer) then
    (.error (.http 403 "Not enough permissions"), db)
  else
    match db.verificationRequests.find? (fun r => r.id == id) with
    | none => (.error (.http 404 "Verification request not found"), db)
    | some _ =>
      let rows := db.verificationRequests.map
        (fun r =>
          if r.id == id then { r with status := "rejected", adminNote := note } else r)
      (.ok "Rejected", { db with verificationRequests := rows })

/-- `SupabaseStorage.upload_marketplace_item`: `None` when not
configured; otherwise put at
`marketplace/{user_id}/items/{item_id}/item_image{ext}` and return the
public URL, or `None` when the call raises. -/
def storage_upload_marketplace_item (env : Env) (userId itemId : Nat) (filename : String) :
    Option String × List StorageOp :=
  if !env.storageConfigured then (none, [])
  else
    let ext := suffixOf filename
    let storagePath := s!"marketplace/{userId}/items/{itemId}/item_image{ext}"
    if env.remoteUploadOk then (some (publicUrl env storagePath), [.remotePut storagePath])
    else (none, [.remotePut storagePath])

/-- `marketplace.create_item`: commit the item first, with `image_url`
null, to obtain its id; only then, when a file is attached, validate the
extension (400 outside jpg/jpeg/png/webp — the already committed item
stays), upload remotely, fall back to a local write at
`static/marketplace/{user_id}_{filename}`, and commit the URL onto the
item. -/
def create_item (env : Env) (db : DB) (u : User) (title description : String)
    (price : Float) (category : String) (file : Option String) :
    Except Err MarketplaceItem × DB × List StorageOp :=
  let item : MarketplaceItem :=
    { id := db.nextItemId, ownerId := u.id, title := title, description := description,
      price := price, category := category, imageUrl := none, isAvailable := true }
  let db1 := { db with marketplaceItems := db.marketplaceItems ++ [item],
                       nextItemId := db.nextItemId + 1 }
  match file with
  | none => (.ok item, db1, [])
  | some filename =>
    let ext := extOf filename
    if !(["jpg", "jpeg", "png", "webp"].contains ext) then
      (.error (.http 400 "Invalid file type. Only JPG/PNG/WEBP allowed."), db1, [])
    else
      let (remote, ops) := storage_upload_marketplace_item env u.id item.id filename
      let localPath := localMarketplacePath u.id filename
      let url := remote.getD localPath
      let allOps := if remote.isSome then ops else ops ++ [.localWrite localPath]
      let item2 := { item with imageUrl := some url }
      let rows := db1.marketplaceItems.map
        (fun x => if x.id == item.id then item2 else x)
      (.ok item2, { db1 with marketplaceItems := rows }, allOps)

/-- The §3 invariant: for a given `user_id`, at most one verification
request is in `pending` state — phrased pairwise over the table. -/
def atMostOnePending (db : DB) : Prop :=
  db.verificationRequests.Pairwise
    (fun a b => a.status = "pending" → b.status = "pending" → a.userId ≠ b.userId)

/-- A user fixture: only the id, role, college and superuser flag vary
across the concrete checks below. -/
def mkUser (id : Nat) (role : String) (collegeId : Option Nat) (su : Bool) : User :=
  { id := id, email := "u@example.com", hashedPassword := "h",
    fullName := "User " ++ toString id, role := role, collegeId := collegeId,
    phoneNumber := none, address := none, interests := none, collegeName := none,
    profileImageUrl := none, themePreference := "system", isActive := true,
    isSuperuser := su }

/-- An event fixture. -/
def mkEvent (id organizerId : Nat) (collegeId : Option Nat) : Event :=
  { id := id, title := "Hack Night", description := "", location := "",
    imageUrl := none, organizerId := organizerId, collegeId := collegeId }

/-- The empty record store. -/
def emptyDB : DB :=
  { users := [], events := [], notifications := [], verificationRequests := [],
    marketplaceItems := [], nextEventId := 1, nextNotifId := 1, nextVRId := 1,
    nextItemId := 1 }

/-- An environment with no remote object store configured. -/
def localEnv : Env :=
  { storageConfigured := false, remoteUploadOk := false, notifInsertOk := true,
    broadcastOk := true, supabaseUrl := "http://supabase.local",
    bucket := "campus-storage", uuidHex := "deadbeef" }

/-- `find?` through a conditional in-place row update: when the update
keeps matching rows matching, the first match of the updated table is the
update of the first match. -/
theorem find?_map_ite {α : Type} (l : List α) (p : α → Bool) (g : α → α)
    (hg : ∀ x, p x = true → p (g x) = true) :
    (l.map (fun x => if p x then g x else x)).find? p = (l.find? p).map g := by
  induction l with
  | nil => rfl
  | cons a t ih =>
    cases h : p a with
    | true => simp [h, hg a h, List.find?_cons_of_pos]
    | false => simp [h, List.find?_cons_of_neg, ih]

/-- C1: a non-privileged actor (`is_superuser` false) listing events gets
exactly the events whose `college_id` equals the actor's; a privileged
actor (superuser, i.e. super_admin) gets the events of all tenants —
stated for a page covering the whole table (offset 0, limit at least the
table size). -/
theorem read_events_tenant_scope (db : DB) (u : User) (limit : Nat) :
    (u.isSuperuser = false →
      (db.events.filter (fun e => e.collegeId == u.collegeId)).length ≤ limit →
      read_events db u 0 limit = db.events.filter (fun e => e.collegeId == u.collegeId)) ∧
    (u.isSuperuser = true → db.events.length ≤ limit →
      read_events db u 0 limit = db.events) := by
  constructor
  · intro hs hl
    simp [read_events, hs, List.take_of_length_le hl]
  · intro hs hl
    simp [read_events, hs, List.take_of_length_le hl]

/-- Events table for the C1 witness: one event in college 1, one in
college 2. -/
def dbC1 : DB :=
  { emptyDB with events := [mkEvent 1 2 (some 1), mkEvent 2 3 (some 2)] }

/-- C1 witness: a college-1 student sees exactly the college-1 event; a
superuser sees both. -/
theorem read_events_tenant_scope_witness :
    read_events dbC1 (mkUser 10 "student" (some 1) false) 0 100 = [mkEvent 1 2 (some 1)] ∧
    read_events dbC1 (mkUser 11 "super_admin" none true) 0 100 =
      [mkEvent 1 2 (some 1), mkEvent 2 3 (some 2)] := by
  have h1 := (read_events_tenant_scope dbC1 (mkUser 10 "student" (some 1) false) 100).1
    rfl (by decide)
  have h2 := (read_events_tenant_scope dbC1 (mkUser 11 "super_admin" none true) 100).2
    rfl (by decide)
  refine ⟨?_, ?_⟩
  · rw [h1]; decide
  · rw [h2]; decide

/-- C2: once the capability check passes, event creation returns the
created event and the committed event row survives, for every notification
outcome (`env` ranges over notification-insert failure, broadcast failure,
and success). -/
theorem create_event_notification_isolated (env : Env) (db : DB) (u : User)
    (e_in : EventCreate) (hcap : collegeAdminOrAbove u = true) :
    ∃ ev : Event,
      (create_event env db u e_in).1 = .ok ev ∧
      (create_event env db u e_in).2.events = db.events ++ [ev] := by
  refine ⟨{ id := db.nextEventId, title := e_in.title, description := e_in.description,
            location := e_in.location, imageUrl := none, organizerId := u.id,
            collegeId := u.collegeId }, ?_, ?_⟩
  · simp [create_event, hcap]
  · simp only [create_event, hcap]
    cases h : env.notifInsertOk <;> simp

/-- Environment for the C2 witness: both the notification insert and the
broadcast fail. -/
def envNotifFail : Env :=
  { localEnv with notifInsertOk := false, broadcastOk := false }

/-- C2 witness: with the notification insert and the broadcast both
failing, creation still returns the event and commits it. -/
theorem create_event_notification_isolated_witness :
    ∃ ev : Event,
      (create_event envNotifFail emptyDB (mkUser 7 "college_admin" (some 1) false)
        { title := "Hack Night", description := "", location := "" }).1 = .ok ev ∧
      (create_event envNotifFail emptyDB (mkUser 7 "college_admin" (some 1) false)
        { title := "Hack Night", description := "", location := "" }).2.events =
        emptyDB.events ++ [ev] :=
  create_event_notification_isolated envNotifFail emptyDB
    (mkUser 7 "college_admin" (some 1) false)
    { title := "Hack Night", description := "", location := "" } (by decide)

/-- Setting the rows matched by an id to a non-pending status preserves
the at-most-one-pending pairwise property of the table. -/
theorem pairwise_pending_map (l : List VerificationRequest) (id : Nat)
    (g : VerificationRequest → VerificationRequest)
    (hst : ∀ r, (g r).status ≠ "pending")
    (hp : l.Pairwise
      (fun a b => a.status = "pending" → b.status = "pending" → a.userId ≠ b.userId)) :
    (l.map (fun r => if r.id == id then g r else r)).Pairwise
      (fun a b => a.status = "pending" → b.status = "pending" → a.userId ≠ b.userId) := by
  refine hp.map (fun r => if r.id == id then g r else r) ?_
  intro a b hab hpa hpb
  dsimp only at hpa hpb ⊢
  have ha : ¬ ((a.id == id) = true) := by
    intro h
    rw [if_pos h] at hpa
    exact absurd hpa (hst a)
  have hb : ¬ ((b.id == id) = true) := by
    intro h
    rw [if_pos h] at hpb
    exact absurd hpb (hst b)
  rw [if_neg ha] at hpa
  rw [if_neg hb] at hpb
  rw [if_neg ha, if_neg hb]
  exact hab hpa hpb

/-- C3: an actor with a `pending` verification request cannot submit
another — the operation errors with the duplicate-pending message and
changes nothing, for any document — and the at-most-one-pending invariant
is preserved by submission, approval and rejection. -/
theorem verification_pending_exclusion (env : Env) (db : DB) (u : User)
    (filename : String) (reviewer : User) (id : Nat) (note : Option String)
    (hinv : atMostOnePending db) :
    ((db.verificationRequests.find?
        (fun r => r.userId == u.id && r.status == "pending")).isSome = true →
      (create_verification_request env db u filename).1 =
        .error (.http 400 "A pending verification request already exists.") ∧
      (create_verification_request env db u filename).2.1 = db) ∧
    atMostOnePending (create_verification_request env db u filename).2.1 ∧
    atMostOnePending (approve_request db reviewer id).2 ∧
    atMostOnePending (reject_request db reviewer id note).2 := by
  refine ⟨?_, ?_, ?_, ?_⟩
  · intro h
    constructor <;>
      simp only [create_verification_request, h, reduceIte]
  · cases hpend : (db.verificationRequests.find?
        (fun r => r.userId == u.id && r.status == "pending")).isSome with
    | true =>
      simp only [create_verification_request, hpend, reduceIte]
      exact hinv
    | false =>
      cases hext : ["jpg", "jpeg", "png", "pdf"].contains (extOf filename) with
      | false =>
        simp only [create_verification_request, hpend, hext, Bool.false_eq_true,
          Bool.not_false, reduceIte]
        exact hinv
      | true =>
        have hfind : db.verificationRequests.find?
            (fun r => r.userId == u.id && r.status == "pending") = none := by
          simpa using hpend
        have hnone := List.find?_eq_none.mp hfind
        rw [atMostOnePending] at hinv ⊢
        simp only [create_verification_request, hpend, hext, Bool.false_eq_true,
          Bool.not_true, Bool.true_eq_false, reduceIte]
        refine List.pairwise_append.mpr ⟨hinv, by simp, ?_⟩
        intro a ha b hb
        simp only [List.mem_singleton] at hb
        subst hb
        intro hpa _ huid
        apply hnone a ha
        simp [hpa, huid]
  · cases hcap : collegeAdminOrAbove reviewer with
    | false =>
      simp only [approve_request, hcap, Bool.not_false, reduceIte]
      exact hinv
    | true =>
      cases hfind : db.verificationRequests.find? (fun r => r.id == id) with
      | none =>
        simp only [approve_request, hcap, hfind, Bool.not_true, Bool.false_eq_true,
          reduceIte]
        exact hinv
      | some v =>
        rw [atMostOnePending] at hinv ⊢
        simp only [approve_request, hcap, hfind, Bool.not_true, Bool.false_eq_true,
          reduceIte]
        exact pairwise_pending_map _ _ _ (fun r => by simp) hinv
  · cases hcap : collegeAdminOrAbove reviewer with
    | false =>
      simp only [reject_request, hcap, Bool.not_false, reduceIte]
      exact hinv
    | true =>
      cases hfind : db.verificationRequests.find? (fun r => r.id == id) with
      | none =>
        simp only [reject_request, hcap, hfind, Bool.not_true, Bool.false_eq_true,
          reduceIte]
        exact hinv
      | some v =>
        rw [atMostOnePending] at hinv ⊢
        simp only [reject_request, hcap, hfind, Bool.not_true, Bool.false_eq_true,
          reduceIte]
        exact pairwise_pending_map _ _ _ (fun r => by simp) hinv

/-- A pending verification request of user 1, for the concrete checks. -/
def pendingVR : VerificationRequest :=
  { id := 1, userId := 1, idCardUrl := "static/verifications/id_1_doc.pdf",
    status := "pending", adminNote := none }

/-- Verification table for the C3 witness: exactly one pending request. -/
def dbC3 : DB := { emptyDB with verificationRequests := [pendingVR], nextVRId := 2 }

/-- C3 witness: the invariant holds of the one-pending-request store, a
second submission by user 1 errors and changes nothing, and approval
preserves the invariant. -/
theorem verification_pending_exclusion_witness :
    atMostOnePending dbC3 ∧
    ((create_verification_request localEnv dbC3 (mkUser 1 "student" (some 1) false)
        "id.png").1 =
      .error (.http 400 "A pending verification request already exists.") ∧
     (create_verification_request localEnv dbC3 (mkUser 1 "student" (some 1) false)
        "id.png").2.1 = dbC3) ∧
    atMostOnePending (approve_request dbC3 (mkUser 2 "college_admin" (some 1) false) 1).2 := by
  have hinv : atMostOnePending dbC3 := by
    simp [atMostOnePending, dbC3, emptyDB]
  have h := verification_pending_exclusion localEnv dbC3 (mkUser 1 "student" (some 1) false)
    "id.png" (mkUser 2 "college_admin" (some 1) false) 1 none hinv
  exact ⟨hinv, h.1 (by decide), h.2.2.1⟩

/-- C4: for a reviewer passing `college_admin_or_above`, approve/reject on
an absent request id fail with 404 and change nothing; on an existing
request they always succeed and set the terminal status (with the supplied
note on rejection), whatever the request's prior status. -/
theorem approve_reject_decision (db : DB) (reviewer : User) (id : Nat)
    (note : Option String) (hcap : collegeAdminOrAbove reviewer = true) :
    (db.verificationRequests.find? (fun r => r.id == id) = none →
      (approve_request db reviewer id).1 =
        .error (.http 404 "Verification request not found") ∧
      (approve_request db reviewer id).2 = db ∧
      (reject_request db reviewer id note).1 =
        .error (.http 404 "Verification request not found") ∧
      (reject_request db reviewer id note).2 = db) ∧
    (∀ vr, db.verificationRequests.find? (fun r => r.id == id) = some vr →
      (approve_request db reviewer id).1 = .ok "Approved" ∧
      (approve_request db reviewer id).2.verificationRequests.find?
        (fun r => r.id == id) = some { vr with status := "approved" } ∧
      (reject_request db reviewer id note).1 = .ok "Rejected" ∧
      (reject_request db reviewer id note).2.verificationRequests.find?
        (fun r => r.id == id) = some { vr with status := "rejected", adminNote := note }) := by
  constructor
  · intro hfind
    refine ⟨?_, ?_, ?_, ?_⟩ <;>
      simp only [approve_request, reject_request, hcap, hfind, Bool.not_true,
        Bool.false_eq_true, reduceIte]
  · intro vr hfind
    have happ := find?_map_ite db.verificationRequests (fun r => r.id == id)
      (fun r => { r with status := "approved" }) (fun x hx => hx)
    have hrej := find?_map_ite db.verificationRequests (fun r => r.id == id)
      (fun r => { r with status := "rejected", adminNote := note }) (fun x hx => hx)
    refine ⟨?_, ?_, ?_, ?_⟩
    · simp only [approve_request, hcap, hfind, Bool.not_true, Bool.false_eq_true, reduceIte]
    · simp only [approve_request, hcap, hfind, Bool.not_true, Bool.false_eq_true, reduceIte]
      rw [happ, hfind]
      rfl
    · simp only [reject_request, hcap, hfind, Bool.not_true, Bool.false_eq_true, reduceIte]
    · simp only [reject_request, hcap, hfind, Bool.not_true, Bool.false_eq_true, reduceIte]
      rw [hrej, hfind]
      rfl

/-- An already-rejected (terminal) verification request. -/
def rejectedVR : VerificationRequest :=
  { id := 3, userId := 4, idCardUrl := "u", status := "rejected",
    adminNote := some "blurry" }

/-- Store for the C4 witness: one terminal request. -/
def dbC4 : DB := { emptyDB with verificationRequests := [rejectedVR], nextVRId := 4 }

/-- C4 witness: a college admin gets 404 on id 99, and re-approving the
already-rejected request 3 succeeds and sets `approved`. -/
theorem approve_reject_decision_witness :
    ((approve_request dbC4 (mkUser 2 "college_admin" (some 1) false) 99).1 =
      .error (.http 404 "Verification request not found") ∧
     (approve_request dbC4 (mkUser 2 "college_admin" (some 1) false) 99).2 = dbC4) ∧
    ((approve_request dbC4 (mkUser 2 "college_admin" (some 1) false) 3).1 = .ok "Approved" ∧
     (approve_request dbC4
        (mkUser 2 "college_admin" (some 1) false) 3).2.verificationRequests.find?
        (fun r => r.id == 3) = some { rejectedVR with status := "approved" }) := by
  have h99 := (approve_reject_decision dbC4 (mkUser 2 "college_admin" (some 1) false)
    99 none (by decide)).1 (by decide)
  have h3 := (approve_reject_decision dbC4 (mkUser 2 "college_admin" (some 1) false)
    3 none (by decide)).2 rejectedVR (by decide)
  exact ⟨⟨h99.1, h99.2.1⟩, ⟨h3.1, h3.2.1⟩⟩

/-- Events table for the C5 checks: one event of college 1, organized by
user 2. -/
def dbC5 : DB := { emptyDB with events := [mkEvent 1 2 (some 1)], nextEventId := 2 }

/-- C5 counterexample: a cross-tenant non-owner can read the event by id,
but the update/delete rejection carries HTTP status 400, not 403 as the
claim states. -/
theorem event_write_rejection_status_counterexample :
    read_event dbC5 1 = .ok (mkEvent 1 2 (some 1)) ∧
    (update_event dbC5 (mkUser 5 "student" (some 2) false) 1 {}).1 =
      .error (.http 400 "Not enough permissions") ∧
    (delete_event dbC5 (mkUser 5 "student" (some 2) false) 1).1 =
      .error (.http 400 "Not enough permissions") ∧
    (Err.http 400 "Not enough permissions") ≠ (Err.http 403 "Not enough permissions") :=
  ⟨rfl, rfl, rfl, by decide⟩

/-- C5 (amended): fetch-by-id applies no tenant scoping — it returns the
event data for any existing id, with no actor consulted at all — while
update and delete by an actor who is neither superuser nor the organizer
are rejected with HTTP status 400 ("Not enough permissions") and leave
the store unchanged. -/
theorem event_read_write_asymmetry (db : DB) (u : User) (id : Nat) (e : Event)
    (e_in : EventUpdate)
    (hfind : db.events.find? (fun x => x.id == id) = some e)
    (hsu : u.isSuperuser = false) (hown : (e.organizerId != u.id) = true) :
    read_event db id = .ok e ∧
    (update_event db u id e_in).1 = .error (.http 400 "Not enough permissions") ∧
    (update_event db u id e_in).2 = db ∧
    (delete_event db u id).1 = .error (.http 400 "Not enough permissions") ∧
    (delete_event db u id).2 = db := by
  have hcond : (!u.isSuperuser && e.organizerId != u.id) = true := by
    rw [hsu]
    simpa using hown
  refine ⟨?_, ?_, ?_, ?_, ?_⟩ <;>
    simp only [read_event, update_event, delete_event, hfind, hcond, reduceIte]

/-- C5 witness for the amended statement, at the counterexample's input. -/
theorem event_read_write_asymmetry_witness :
    read_event dbC5 1 = .ok (mkEvent 1 2 (some 1)) ∧
    (update_event dbC5 (mkUser 5 "student" (some 2) false) 1 {}).1 =
      .error (.http 400 "Not enough permissions") ∧
    (update_event dbC5 (mkUser 5 "student" (some 2) false) 1 {}).2 = dbC5 ∧
    (delete_event dbC5 (mkUser 5 "student" (some 2) false) 1).1 =
      .error (.http 400 "Not enough permissions") ∧
    (delete_event dbC5 (mkUser 5 "student" (some 2) false) 1).2 = dbC5 :=
  event_read_write_asymmetry dbC5 (mkUser 5 "student" (some 2) false) 1
    (mkEvent 1 2 (some 1)) {} (by decide) (by decide) (by decide)

/-- C6 counterexample: with a pending request on file, a verification
submission whose extension is outside the allow-list fails with the
duplicate-pending error, not the invalid-file-type error. -/
theorem invalid_extension_conflict_precedence_counterexample :
    (["jpg", "jpeg", "png", "pdf"].contains (extOf "doc.gif")) = false ∧
    (create_verification_request localEnv dbC3 (mkUser 1 "student" (some 1) false)
      "doc.gif").1 = .error (.http 400 "A pending verification request already exists.") ∧
    (Err.http 400 "A pending verification request already exists.") ≠
      (Err.http 400 "Invalid file type. Only JPG/PNG/PDF allowed.") :=
  ⟨by decide, rfl, by decide⟩

/-- C6 (amended): an upload whose extension is outside the kind-specific
allow-list fails before any storage call is attempted, with no record or
URL changed; the error is the invalid-file-type one, except that a
verification submission by an actor who already has a pending request
fails with the duplicate-pending error instead, the pending check
preceding file validation. -/
theorem invalid_extension_rejected_before_storage (env : Env) (db : DB) (u : User)
    (fp fv : String)
    (hp : (["jpg", "jpeg", "png", "webp"].contains (extOf fp)) = false)
    (hv : (["jpg", "jpeg", "png", "pdf"].contains (extOf fv)) = false) :
    ((upload_profile_image env db u fp).1 =
        .error (.http 400 "Invalid file type. Only JPG/PNG/WEBP allowed.") ∧
      (upload_profile_image env db u fp).2.1 = db ∧
      (upload_profile_image env db u fp).2.2 = []) ∧
    ((db.verificationRequests.find?
        (fun r => r.userId == u.id && r.status == "pending")).isSome = false →
      (create_verification_request env db u fv).1 =
        .error (.http 400 "Invalid file type. Only JPG/PNG/PDF allowed.") ∧
      (create_verification_request env db u fv).2.1 = db ∧
      (create_verification_request env db u fv).2.2 = []) ∧
    ((db.verificationRequests.find?
        (fun r => r.userId == u.id && r.status == "pending")).isSome = true →
      (create_verification_request env db u fv).1 =
        .error (.http 400 "A pending verification request already exists.") ∧
      (create_verification_request env db u fv).2.1 = db ∧
      (create_verification_request env db u fv).2.2 = []) := by
  refine ⟨?_, ?_, ?_⟩
  · refine ⟨?_, ?_, ?_⟩ <;>
      simp only [upload_profile_image, hp, Bool.not_false, reduceIte]
  · intro h
    refine ⟨?_, ?_, ?_⟩ <;>
      simp only [create_verification_request, h, hv, Bool.false_eq_true, Bool.not_false,
        reduceIte]
  · intro h
    refine ⟨?_, ?_, ?_⟩ <;>
      simp only [create_verification_request, h, reduceIte]

/-- C6 witness for the amended statement: `photo.gif` as a profile image
is rejected with no storage call; `doc.gif` as a verification document is
rejected as invalid for user 9 (no pending request) and as
duplicate-pending for user 1 (one pending request on file). -/
theorem invalid_extension_rejected_before_storage_witness :
    ((upload_profile_image localEnv dbC3 (mkUser 9 "student" (some 1) false)
        "photo.gif").1 =
      .error (.http 400 "Invalid file type. Only JPG/PNG/WEBP allowed.") ∧
     (upload_profile_image localEnv dbC3 (mkUser 9 "student" (some 1) false)
        "photo.gif").2.2 = []) ∧
    ((create_verification_request localEnv dbC3 (mkUser 9 "student" (some 1) false)
        "doc.gif").1 =
      .error (.http 400 "Invalid file type. Only JPG/PNG/PDF allowed.") ∧
     (create_verification_request localEnv dbC3 (mkUser 9 "student" (some 1) false)
        "doc.gif").2.1 = dbC3) ∧
    (create_verification_request localEnv dbC3 (mkUser 1 "student" (some 1) false)
        "doc.gif").1 =
      .error (.http 400 "A pending verification request already exists.") := by
  have h9 := invalid_extension_rejected_before_storage localEnv dbC3
    (mkUser 9 "student" (some 1) false) "photo.gif" "doc.gif" (by decide) (by decide)
  have h1 := invalid_extension_rejected_before_storage localEnv dbC3
    (mkUser 1 "student" (some 1) false) "photo.gif" "doc.gif" (by decide) (by decide)
  have hno := h9.2.1 (by decide)
  have hyes := h1.2.2 (by decide)
  exact ⟨⟨h9.1.1, h9.1.2.2⟩, ⟨hno.1, hno.2.1⟩, hyes.1⟩

/-- C7: with no remote object store configured, the remote resolver yields
no URL and each image upload (event image, profile image, marketplace item
image) falls back to a local filesystem write at a deterministic
kind-specific path, never failing with a storage error; the fallback URL
is persisted onto the owning resource exactly as a remote URL would be. -/
theorem local_fallback_deterministic (env : Env) (db : DB) (u : User) (id : Nat)
    (e : Event) (fe fp fm title desc cat : String) (price : Float)
    (hcfg : env.storageConfigured = false)
    (hfind : db.events.find? (fun x => x.id == id) = some e)
    (hperm : (!u.isSuperuser && e.organizerId != u.id) = false)
    (hufind : db.users.find? (fun x => x.id == u.id) = some u)
    (hfresh : ∀ it ∈ db.marketplaceItems, (it.id == db.nextItemId) = false)
    (hfe : (["jpg", "jpeg", "png", "webp"].contains (extOf fe)) = true)
    (hfp : (["jpg", "jpeg", "png", "webp"].contains (extOf fp)) = true)
    (hfm : (["jpg", "jpeg", "png", "webp"].contains (extOf fm)) = true) :
    (storage_upload_event_image env e.id fe = (none, []) ∧
     (upload_event_image env db u id fe).1 =
       .ok { e with imageUrl := some ("/static/events/" ++ localEventFile e.id (extOf fe)) } ∧
     (upload_event_image env db u id fe).2.1.events.find? (fun x => x.id == id) =
       some { e with imageUrl := some ("/static/events/" ++ localEventFile e.id (extOf fe)) } ∧
     (upload_event_image env db u id fe).2.2 =
       [.localWrite ("static/events/" ++ localEventFile e.id (extOf fe))]) ∧
    ((upload_profile_image env db u fp).1 =
       .ok { u with profileImageUrl := some ("/static/profile_images/" ++ localProfileFile u.id (extOf fp)) } ∧
     (upload_profile_image env db u fp).2.1.users.find? (fun x => x.id == u.id) =
       some { u with profileImageUrl := some ("/static/profile_images/" ++ localProfileFile u.id (extOf fp)) } ∧
     (upload_profile_image env db u fp).2.2 =
       [.localWrite ("static/profile_images/" ++ localProfileFile u.id (extOf fp))]) ∧
    ((create_item env db u title desc price cat (some fm)).1 =
       .ok { id := db.nextItemId, ownerId := u.id, title := title, description := desc,
             price := price, category := cat,
             imageUrl := some (localMarketplacePath u.id fm), isAvailable := true } ∧
     (create_item env db u title desc price cat (some fm)).2.1.marketplaceItems =
       db.marketplaceItems ++
         [{ id := db.nextItemId, ownerId := u.id, title := title, description := desc,
            price := price, category := cat,
            imageUrl := some (localMarketplacePath u.id fm), isAvailable := true }] ∧
     (create_item env db u title desc price cat (some fm)).2.2 =
       [.localWrite (localMarketplacePath u.id fm)]) := by
  have hfound : (e.id == id) = true := by simpa using List.find?_some hfind
  refine ⟨⟨?_, ?_, ?_, ?_⟩, ⟨?_, ?_, ?_⟩, ⟨?_, ?_, ?_⟩⟩
  · simp only [storage_upload_event_image, hcfg, Bool.not_false, reduceIte]
  · simp only [upload_event_image, hfind, hperm, hfe, storage_upload_event_image, hcfg,
      Bool.not_false, Bool.not_true, Bool.false_eq_true, reduceIte, Option.getD_none,
      Option.isSome_none, List.nil_append]
  · simp only [upload_event_image, hfind, hperm, hfe, storage_upload_event_image, hcfg,
      Bool.not_false, Bool.not_true, Bool.false_eq_true, reduceIte, Option.getD_none,
      Option.isSome_none, List.nil_append]
    rw [find?_map_ite db.events (fun x => x.id == id)
      (fun _ => { e with imageUrl := some ("/static/events/" ++ localEventFile e.id (extOf fe)) })
      (fun _ _ => hfound), hfind]
    rfl
  · simp only [upload_event_image, hfind, hperm, hfe, storage_upload_event_image, hcfg,
      Bool.not_false, Bool.not_true, Bool.false_eq_true, reduceIte, Option.getD_none,
      Option.isSome_none, List.nil_append]
  · simp only [upload_profile_image, hfp, storage_upload_profile_image, hcfg,
      Bool.not_false, Bool.not_true, Bool.false_eq_true, reduceIte, Option.getD_none,
      Option.isSome_none, List.nil_append]
  · simp only [upload_profile_image, hfp, storage_upload_profile_image, hcfg,
      Bool.not_false, Bool.not_true, Bool.false_eq_true, reduceIte, Option.getD_none,
      Option.isSome_none, List.nil_append]
    rw [find?_map_ite db.users (fun x => x.id == u.id)
      (fun _ => { u with profileImageUrl := some ("/static/profile_images/" ++ localProfileFile u.id (extOf fp)) })
      (fun _ _ => by simp), hufind]
    rfl
  · simp only [upload_profile_image, hfp, storage_upload_profile_image, hcfg,
      Bool.not_false, Bool.not_true, Bool.false_eq_true, reduceIte, Option.getD_none,
      Option.isSome_none, List.nil_append]
  · simp only [create_item, hfm, storage_upload_marketplace_item, hcfg,
      Bool.not_false, Bool.not_true, Bool.false_eq_true, reduceIte, Option.getD_none,
      Option.isSome_none, List.nil_append]
  · simp only [create_item, hfm, storage_upload_marketplace_item, hcfg,
      Bool.not_false, Bool.not_true, Bool.false_eq_true, reduceIte, Option.getD_none,
      Option.isSome_none, List.nil_append]
    rw [List.map_append]
    congr 1
    · conv_rhs => rw [← List.map_id db.marketplaceItems]
      refine List.map_congr_left ?_
      intro x hx
      simp [hfresh x hx]
    · simp
  · simp only [create_item, hfm, storage_upload_marketplace_item, hcfg,
      Bool.not_false, Bool.not_true, Bool.false_eq_true, reduceIte, Option.getD_none,
      Option.isSome_none, List.nil_append]

/-- Store for the C7 witness: a college-admin organizer (user 2) and
their event 1. -/
def dbC7 : DB :=
  { emptyDB with users := [mkUser 2 "college_admin" (some 1) false],
                 events := [mkEvent 1 2 (some 1)], nextEventId := 2 }

/-- C7 witness: with no remote store, the resolver yields no URL, the
event image lands at the deterministic local path and is persisted, the
profile upload performs the single local write, and the created item
carries the local marketplace URL. -/
theorem local_fallback_deterministic_witness :
    storage_upload_event_image localEnv 1 "a.JPG" = (none, []) ∧
    (upload_event_image localEnv dbC7 (mkUser 2 "college_admin" (some 1) false) 1
        "a.JPG").1 =
      .ok { mkEvent 1 2 (some 1) with
            imageUrl := some ("/static/events/" ++ localEventFile 1 (extOf "a.JPG")) } ∧
    (upload_profile_image localEnv dbC7 (mkUser 2 "college_admin" (some 1) false)
        "b.png").2.2 =
      [.localWrite ("static/profile_images/" ++ localProfileFile 2 (extOf "b.png"))] ∧
    (create_item localEnv dbC7 (mkUser 2 "college_admin" (some 1) false) "Calc book"
        "good" 0.0 "books" (some "c.webp")).2.1.marketplaceItems =
      dbC7.marketplaceItems ++
        [{ id := dbC7.nextItemId, ownerId := 2, title := "Calc book",
           description := "good", price := 0.0, category := "books",
           imageUrl := some (localMarketplacePath 2 "c.webp"), isAvailable := true }] := by
  have h := local_fallback_deterministic localEnv dbC7
    (mkUser 2 "college_admin" (some 1) false) 1 (mkEvent 1 2 (some 1))
    "a.JPG" "b.png" "c.webp" "Calc book" "good" "books" 0.0
    rfl (by decide) (by decide) (by decide) (by decide) (by decide) (by decide) (by decide)
  exact ⟨h.1.1, h.1.2.1, h.2.1.2.2, h.2.2.2.1⟩

/-- An update payload that sets only the privilege-relevant fields:
`is_superuser`, `college_id` and `role`. -/
def escalation (b : Bool) (cid : Option Nat) (r : String) : UserUpdate :=
  { isSuperuser := some b, collegeId := some cid, role := some r }

/-- C8: self-profile update assigns every provided field onto the current
user with no capability check — in particular `is_superuser`, `role` and
`college_id` are caller-controlled, so any actor can make themselves
super-privileged or move to another tenant, and the result is committed
over the user's row. -/
theorem update_user_me_unrestricted (db : DB) (u : User) (b : Bool)
    (cid : Option Nat) (r : String) :
    (update_user_me db u (escalation b cid r)).1.isSuperuser = b ∧
    (update_user_me db u (escalation b cid r)).1.collegeId = cid ∧
    (update_user_me db u (escalation b cid r)).1.role = r ∧
    (update_user_me db u (escalation b cid r)).1.id = u.id ∧
    (update_user_me db u (escalation b cid r)).2.users =
      db.users.map (fun x =>
        if x.id == u.id then applyUserUpdate u (escalation b cid r) else x) :=
  ⟨rfl, rfl, rfl, rfl, rfl⟩

/-- A cross-tenant pending request: submitted by user 4 of college 2. -/
def crossVR : VerificationRequest :=
  { id := 5, userId := 4, idCardUrl := "u", status := "pending", adminNote := none }

/-- Store for the C9 witness. -/
def dbC9 : DB := { emptyDB with verificationRequests := [crossVR], nextVRId := 6 }

/-- C9: approve/reject check only existence and the
`college_admin_or_above` capability — no tenant clause — so a college
admin's decision succeeds on any existing request, including one submitted
by an actor of a different tenant. -/
theorem decide_verification_no_tenant_restriction (db : DB)
    (reviewer submitter : User) (id : Nat) (vr : VerificationRequest)
    (note : Option String)
    (hcap : collegeAdminOrAbove reviewer = true)
    (hfind : db.verificationRequests.find? (fun r => r.id == id) = some vr)
    (hsub : vr.userId = submitter.id)
    (hcross : submitter.collegeId ≠ reviewer.collegeId) :
    (approve_request db reviewer id).1 = .ok "Approved" ∧
    (reject_request db reviewer id note).1 = .ok "Rejected" := by
  constructor <;>
    simp only [approve_request, reject_request, hcap, hfind, Bool.not_true,
      Bool.false_eq_true, reduceIte]

/-- C9 witness: a college-1 admin approves (and rejects) the pending
request of a college-2 student. -/
theorem decide_verification_no_tenant_restriction_witness :
    (approve_request dbC9 (mkUser 2 "college_admin" (some 1) false) 5).1 =
      .ok "Approved" ∧
    (reject_request dbC9 (mkUser 2 "college_admin" (some 1) false) 5 (some "n")).1 =
      .ok "Rejected" :=
  decide_verification_no_tenant_restriction dbC9
    (mkUser 2 "college_admin" (some 1) false) (mkUser 4 "student" (some 2) false)
    5 crossVR (some "n") (by decide) (by decide) (by decide) (by decide)

/-- C10: marketplace creation with a file commits the item before
validating the extension — on an extension outside the allow-list the
operation errors, yet the item row (with null `image_url`) is already
persisted, the id counter advanced, and no storage call was made. -/
theorem create_item_commits_before_validation (env : Env) (db : DB) (u : User)
    (title desc : String) (price : Float) (cat filename : String)
    (hext : (["jpg", "jpeg", "png", "webp"].contains (extOf filename)) = false) :
    (create_item env db u title desc price cat (some filename)).1 =
      .error (.http 400 "Invalid file type. Only JPG/PNG/WEBP allowed.") ∧
    (create_item env db u title desc price cat (some filename)).2.1.marketplaceItems =
      db.marketplaceItems ++
        [{ id := db.nextItemId, ownerId := u.id, title := title, description := desc,
           price := price, category := cat, imageUrl := none, isAvailable := true }] ∧
    (create_item env db u title desc price cat (some filename)).2.1.nextItemId =
      db.nextItemId + 1 ∧
    (create_item env db u title desc price cat (some filename)).2.2 = [] := by
  refine ⟨?_, ?_, ?_, ?_⟩ <;>
    simp only [create_item, hext, Bool.not_false, reduceIte]

/-- C10 witness: a `img.gif` attachment errors while the item row is
committed with null image URL. -/
theorem create_item_commits_before_validation_witness :
    (create_item localEnv emptyDB (mkUser 5 "student" (some 1) false) "Calc" "used"
        0.0 "books" (some "img.gif")).1 =
      .error (.http 400 "Invalid file type. Only JPG/PNG/WEBP allowed.") ∧
    (create_item localEnv emptyDB (mkUser 5 "student" (some 1) false) "Calc" "used"
        0.0 "books" (some "img.gif")).2.1.marketplaceItems =
      emptyDB.marketplaceItems ++
        [{ id := emptyDB.nextItemId, ownerId := 5, title := "Calc",
           description := "used", price := 0.0, category := "books",
           imageUrl := none, isAvailable := true }] := by
  have h := create_item_commits_before_validation localEnv emptyDB
    (mkUser 5 "student" (some 1) false) "Calc" "used" 0.0 "books" "img.gif" (by decide)
  exact ⟨h.1, h.2.1⟩

end CampusLink
